import Mathlib

/-!
Verification of the Hell Clock Graveyard save-file ingestion pipeline
(`src/saveFileParser.ts`, `src/lib/hash.ts`).

The source is TypeScript operating on values produced by `JSON.parse`.
We embed the JavaScript runtime value space as the inductive type `JVal`
(numeric literals are modelled as integers), and translate each source
function into a Lean definition, keeping the source's evaluation order,
its defaulting policy, and its failure behaviour — including the fact
that a property read on `null`/`undefined` raises a TypeError, while a
property read on any other non-object value yields `undefined`.
-/

namespace Graveyard

/-- JavaScript runtime values as produced by JSON.parse, together with the
`undefined` value that a property access on a missing key yields. Numeric
literals are modelled as exact integers; the source computes in IEEE-754
doubles, which admit fractions and round above 2^53, so no statement
proved below is allowed to depend on exactness of addition or on the gap
between positivity and being at least 1. -/
inductive JVal where
  | undefined
  | null
  | bool (b : Bool)
  | num (n : Int)
  | str (s : String)
  | arr (elems : List JVal)
  | obj (fields : List (String × JVal))

/-- The numeric value of a decimal digit character, if it is one. -/
def charDigit? (c : Char) : Option Nat :=
  if 48 ≤ c.toNat && c.toNat ≤ 57 then some (c.toNat - 48) else none

/-- Accumulate a run of decimal digits into a number; fails on a
non-digit. -/
def parseIndexAux : List Char → Nat → Option Nat
  | [], acc => some acc
  | c :: cs, acc =>
    match charDigit? c with
    | some d => parseIndexAux cs (acc * 10 + d)
    | none => none

/-- Read a string as a canonical array-index numeral (no sign, no leading
zero except "0" itself), as JavaScript element access does. -/
def parseIndex (s : String) : Option Nat :=
  match s.data with
  | [] => none
  | c :: cs =>
    if c == '0' then (if cs.isEmpty then some 0 else none)
    else parseIndexAux (c :: cs) 0

/-- Property read `v[k]` (string key) on a value that is NOT null/undefined:
objects look the key up among their fields, arrays answer `length` and
canonical numeric indices, strings answer `length` and indices, and every
other read yields `undefined`. Mirrors the untyped accesses of the source. -/
def getAttr : JVal → String → JVal
  | .obj fs, k =>
    match fs.find? (fun p => p.1 == k) with
    | some p => p.2
    | none => .undefined
  | .arr xs, k =>
    if k == "length" then .num xs.length
    else
      match parseIndex k with
      | some i => xs.getD i .undefined
      | none => .undefined
  | .str s, k =>
    if k == "length" then .num s.length
    else
      match parseIndex k with
      | some i =>
        match s.data.get? i with
        | some c => .str (String.singleton c)
        | none => .undefined
      | none => .undefined
  | _, _ => .undefined

/-- Failure modes of the extraction half of the pipeline, mirroring each
`throw new Error(...)` site of `saveFileParser.ts` plus the implicit
TypeError a property read on null/undefined raises (the argument records
the property name being read). -/
inductive ExtractErr where
  | typeError (prop : String)
  | missingStatBlock (key : String)
  | missingField (key : String)
  | noDamageHistory
  | missingTotalDamage
  | missingFieldPath (path : String)
  deriving DecidableEq, Repr

/-- Plain property read `v.k`: raises a TypeError when `v` is null or
undefined, otherwise reads via `getAttr`. -/
def getPropEx (v : JVal) (k : String) : Except ExtractErr JVal :=
  match v with
  | .null => .error (.typeError k)
  | .undefined => .error (.typeError k)
  | v => .ok (getAttr v k)

/-- Optional-chained property read `v?.k`: yields `undefined` when `v` is
null or undefined, otherwise reads via `getAttr`. -/
def optChain (v : JVal) (k : String) : JVal :=
  match v with
  | .null => .undefined
  | .undefined => .undefined
  | v => getAttr v k

/-- JavaScript truthiness of a value (`!data` in the source tests this). -/
def jsTruthy : JVal → Bool
  | .undefined => false
  | .null => false
  | .bool b => b
  | .num n => n != 0
  | .str s => s != ""
  | .arr _ => true
  | .obj _ => true

/-- Whether `typeof v === 'object'` holds; in JavaScript this is true for
objects, arrays and (notoriously) null. -/
def typeofObject : JVal → Bool
  | .null => true
  | .arr _ => true
  | .obj _ => true
  | _ => false

/-- Error codes of the structural validator (`ValidationError.code`). -/
inductive VCode where
  | NOT_HARDCORE
  | NO_DEATH
  | ALIVE
  | INVALID_STRUCTURE
  deriving DecidableEq, Repr

/-- A validation error: a code plus the user-facing message. -/
structure ValidationError where
  code : VCode
  message : String
  deriving DecidableEq, Repr

/-- `validateSaveFile` from `saveFileParser.ts`: returns `some` error for an
inadmissible document and `none` when the document may proceed to
extraction. The checks run in source order, each short-circuiting. -/
def validateSaveFile (data : JVal) : Option ValidationError :=
  if !(jsTruthy data && typeofObject data) then
    some ⟨.INVALID_STRUCTURE, "Invalid save file: not an object."⟩
  else
    match getAttr data "hardcoreModeEnabled" with
    | .bool true =>
      match getAttr data "cumulativeTotalDeaths" with
      | .num n =>
        if n == 1 then
          match getAttr data "pastRunsData" with
          | .arr xs =>
            if xs.isEmpty then
              some ⟨.INVALID_STRUCTURE, "pastRunsData is missing or empty."⟩
            else none
          | _ => some ⟨.INVALID_STRUCTURE, "pastRunsData is missing or empty."⟩
        else
          some ⟨.NO_DEATH, "Save file must have cumulativeTotalDeaths === 1 to submit a death."⟩
      | _ =>
        some ⟨.NO_DEATH, "Save file must have cumulativeTotalDeaths === 1 to submit a death."⟩
    | _ =>
      some ⟨.NOT_HARDCORE, "Only Hardcore deaths are accepted. hardcoreModeEnabled must be true."⟩

/-- The scan underlying both lookup entry points:
`serializedList.find((x) => x.Key === key)`. The callback's property read
`x.Key` raises a TypeError when an element is null (or undefined); a
strict-equality hit against the string `key` requires the stored key to be
a string equal to it. First match wins. -/
def findByKey (key : String) : List JVal → Except ExtractErr (Option JVal)
  | [] => .ok none
  | x :: xs =>
    match getPropEx x "Key" with
    | .error e => .error e
    | .ok kv =>
      match kv with
      | .str s => if s == key then .ok (some x) else findByKey key xs
      | _ => findByKey key xs

/-- `getValueFromSerializedList` from `saveFileParser.ts`: the optional
lookup. A non-array list, a missed key, or a found entry whose `Value` is
not a number all yield 0. -/
def getValueFromSerializedList (serializedList : JVal) (key : String) :
    Except ExtractErr Int :=
  match serializedList with
  | .arr items =>
    match findByKey key items with
    | .error e => .error e
    | .ok none => .ok 0
    | .ok (some item) =>
      match optChain item "Value" with
      | .num n => .ok n
      | _ => .ok 0
  | _ => .ok 0

/-- `getRequiredValue` from `saveFileParser.ts`: the required lookup. A
non-array list raises the missing-stat-block error naming the key; a missed
key or a non-numeric `Value` raises the missing-required-field error. -/
def getRequiredValue (serializedList : JVal) (key : String) :
    Except ExtractErr Int :=
  match serializedList with
  | .arr items =>
    match findByKey key items with
    | .error e => .error e
    | .ok none => .error (.missingField key)
    | .ok (some item) =>
      match optChain item "Value" with
      | .num n => .ok n
      | _ => .error (.missingField key)
  | _ => .error (.missingStatBlock key)

/-- Subscripting a non-nullish value by a number, as JavaScript does after
converting the number to a property key: in-range indices of arrays and
strings hit the element, objects may carry numeric-string field keys, and
everything else (negative indices included) yields `undefined`. -/
def subscriptNum (v : JVal) (n : Int) : JVal :=
  match v with
  | .arr xs =>
    match n with
    | .ofNat i => xs.getD i .undefined
    | .negSucc _ => .undefined
  | .str s =>
    match n with
    | .ofNat i =>
      match s.data.get? i with
      | some c => .str (String.singleton c)
      | none => .undefined
    | .negSucc _ => .undefined
  | .obj fs => getAttr (.obj fs) (toString n)
  | _ => .undefined

/-- The subscript `v[v.length - 1]` used to pick the final run: reads
`length` (a TypeError on null/undefined), then indexes by the number
`length - 1`; a non-numeric `length` makes the index `NaN`, whose property
key is the string "NaN". -/
def getIndexLast (v : JVal) : Except ExtractErr JVal :=
  match getPropEx v "length" with
  | .error e => .error e
  | .ok (.num n) => .ok (subscriptNum v (n - 1))
  | .ok _ => getPropEx v "NaN"

/-- Result record of `getLastRunStats`. -/
structure LastRunStats where
  level : Int
  damageTaken : Int
  lastRunKills : Int
  lastRunSoulstones : Int
  lastRunRegularKills : Int
  lastRunEliteKills : Int
  lastRunBossKills : Int
  lastRunGold : Int
  lastRunDamageDealt : Int
  lastRunDuration : Int
  deriving DecidableEq, Repr

/-- `getLastRunStats` from `saveFileParser.ts`, in source evaluation order:
final run, counter and aggregator lists, required level, the optional
per-run metrics, required run time, then the damage-instance check. -/
def getLastRunStats (data : JVal) : Except ExtractErr LastRunStats := do
  let pastRuns ← getPropEx data "pastRunsData"
  let lastRun ← getIndexLast pastRuns
  let sc ← getPropEx lastRun "_statCounters"
  let cntList := optChain sc "_serializedList"
  let sa ← getPropEx lastRun "_statAggregators"
  let aggList := optChain sa "_serializedList"
  let level ← getRequiredValue cntList "LevelAchieved"
  let lastRunKills ← getValueFromSerializedList cntList "EnemiesDefeated"
  let lastRunRegularKills ← getValueFromSerializedList cntList "RegularEnemiesDefeated"
  let lastRunEliteKills ← getValueFromSerializedList cntList "EliteEnemiesDefeated"
  let lastRunBossKills ← getValueFromSerializedList cntList "BossEnemiesDefeated"
  let lastRunSoulstones ← getValueFromSerializedList cntList "SoulStonesCollected"
  let lastRunGold ← getValueFromSerializedList aggList "GoldGained"
  let lastRunDamageDealt ← getValueFromSerializedList aggList "DamageDealt"
  let lastRunDuration ← getRequiredValue aggList "RunTime"
  let damageInstances ← getPropEx lastRun "_lastDamageInstances"
  match damageInstances with
  | .arr dis =>
    if dis.isEmpty then .error .noDamageHistory
    else
      match optChain (dis.getLast?.getD .undefined) "_totalDamage" with
      | .num damageTaken =>
        .ok { level := level, damageTaken := damageTaken,
              lastRunKills := lastRunKills, lastRunSoulstones := lastRunSoulstones,
              lastRunRegularKills := lastRunRegularKills,
              lastRunEliteKills := lastRunEliteKills,
              lastRunBossKills := lastRunBossKills, lastRunGold := lastRunGold,
              lastRunDamageDealt := lastRunDamageDealt,
              lastRunDuration := lastRunDuration }
      | _ => .error .missingTotalDamage
  | _ => .error .noDamageHistory

/-- The per-run body of the career-aggregation loop of `sumCareerStats`, in
source order: aggregator list, counter list, then the five optional
lookups (gold, soulstones, kills, elite kills, boss kills). -/
def runStats (run : JVal) : Except ExtractErr (Int × Int × Int × Int × Int) := do
  let sa ← getPropEx run "_statAggregators"
  let aggList := optChain sa "_serializedList"
  let sc ← getPropEx run "_statCounters"
  let cntList := optChain sc "_serializedList"
  let g ← getValueFromSerializedList aggList "GoldGained"
  let s ← getValueFromSerializedList cntList "SoulStonesCollected"
  let k ← getValueFromSerializedList cntList "EnemiesDefeated"
  let e ← getValueFromSerializedList cntList "EliteEnemiesDefeated"
  let b ← getValueFromSerializedList cntList "BossEnemiesDefeated"
  return (g, s, k, e, b)

/-- The `for (const run of pastRunsData)` fold of `sumCareerStats`, carrying
the five running totals (gold, soulstones, kills, elite kills, bosses). -/
def sumRuns : List JVal → (Int × Int × Int × Int × Int) →
    Except ExtractErr (Int × Int × Int × Int × Int)
  | [], acc => .ok acc
  | run :: rest, acc =>
    match runStats run with
    | .error e => .error e
    | .ok v => sumRuns rest (acc + v)

/-- Career totals returned by `sumCareerStats`. -/
structure CareerTotals where
  totalGold : Int
  totalSoulstones : Int
  totalKills : Int
  totalEliteKills : Int
  totalBosses : Int
  deriving DecidableEq, Repr

/-- `sumCareerStats` from `saveFileParser.ts`. The `for...of` loop iterates
arrays elementwise and strings by code point, and raises a TypeError on any
non-iterable argument. -/
def sumCareerStats (pastRunsData : JVal) : Except ExtractErr CareerTotals :=
  match pastRunsData with
  | .arr runs =>
    match sumRuns runs (0, 0, 0, 0, 0) with
    | .error e => .error e
    | .ok (g, s, k, e, b) =>
      .ok { totalGold := g, totalSoulstones := s, totalKills := k,
            totalEliteKills := e, totalBosses := b }
  | .str t =>
    match sumRuns (t.toList.map (fun c => JVal.str (String.singleton c))) (0, 0, 0, 0, 0) with
    | .error e => .error e
    | .ok (g, s, k, e, b) =>
      .ok { totalGold := g, totalSoulstones := s, totalKills := k,
            totalEliteKills := e, totalBosses := b }
  | _ => .error (.typeError "Symbol.iterator")

/-- The loadout filter-and-map of `extractDeathPayload`: every slot's
`_skillHashId` is read (a TypeError on a null/undefined slot), the sentinel
number -1 drops the slot, and every other value — numeric or not — is kept
in slot order. -/
def filterSlots : List JVal → Except ExtractErr (List JVal)
  | [] => .ok []
  | slot :: rest =>
    match getPropEx slot "_skillHashId" with
    | .error e => .error e
    | .ok sid =>
      match filterSlots rest with
      | .error e => .error e
      | .ok tail =>
        if (match sid with | .num n => n == -1 | _ => false) then .ok tail
        else .ok (sid :: tail)

/-- The loadout resolution step of `extractDeathPayload`: only an
`Array.isArray` skill-slot value is filtered and mapped; anything else
leaves the skill list empty. -/
def resolveSkillIds (skillSlots : JVal) : Except ExtractErr (List JVal) :=
  match skillSlots with
  | .arr slots => filterSlots slots
  | _ => .ok []

/-- The canonical payload built by `extractDeathPayload` (the fields of the
object literal it returns). `skillIds` keeps the raw values the loadout
filter produced. -/
structure ExtractedDeathPayload where
  level : Int
  damageTaken : Int
  careerSeconds : Int
  careerRuns : Int
  careerKills : Int
  careerEliteKills : Int
  careerBosses : Int
  careerGold : Int
  careerSoulstones : Int
  skillIds : List JVal
  lastRunKills : Int
  lastRunSoulstones : Int
  lastRunRegularKills : Int
  lastRunEliteKills : Int
  lastRunBossKills : Int
  lastRunGold : Int
  lastRunDamageDealt : Int
  lastRunDuration : Int

/-- `extractDeathPayload` from `saveFileParser.ts`: last-run stats, career
totals, the two required top-level fields, the loadout resolution, the
level clamp to a minimum of 1, and the final assembly with `skillIds`
truncated to 5 entries. -/
def extractDeathPayload (data : JVal) : Except ExtractErr ExtractedDeathPayload := do
  let s ← getLastRunStats data
  let runsVal ← getPropEx data "pastRunsData"
  let c ← sumCareerStats runsVal
  let gt ← getPropEx data "gameplayTime"
  let gameplayTime ←
    match gt with
    | .num n => Except.ok n
    | _ => Except.error (.missingFieldPath "gameplayTime")
  let cr ← getPropEx data "cumulativeTotalRuns"
  let careerRuns ←
    match cr with
    | .num n => Except.ok n
    | _ => Except.error (.missingFieldPath "cumulativeTotalRuns")
  let ss ← getPropEx data "skillSlots"
  let skillIds ← resolveSkillIds ss
  let finalLevel := if s.level > 0 then s.level else 1
  return { level := finalLevel, damageTaken := s.damageTaken,
           careerSeconds := gameplayTime, careerRuns := careerRuns,
           careerKills := c.totalKills, careerEliteKills := c.totalEliteKills,
           careerBosses := c.totalBosses, careerGold := c.totalGold,
           careerSoulstones := c.totalSoulstones,
           skillIds := skillIds.take 5,
           lastRunKills := s.lastRunKills,
           lastRunSoulstones := s.lastRunSoulstones,
           lastRunRegularKills := s.lastRunRegularKills,
           lastRunEliteKills := s.lastRunEliteKills,
           lastRunBossKills := s.lastRunBossKills,
           lastRunGold := s.lastRunGold,
           lastRunDamageDealt := s.lastRunDamageDealt,
           lastRunDuration := s.lastRunDuration }

/-! Document-building helpers used to state the claims: well-formed stat
lists, run entries and documents of the shape the game client produces. -/

/-- Well-formed serialized-list entries: `(Key, Value)` objects with string
keys and numeric values. -/
def mkEntries (kvs : List (String × Int)) : List JVal :=
  kvs.map (fun kv => .obj [("Key", .str kv.1), ("Value", .num kv.2)])

/-- A well-formed serialized stat list: an object whose `_serializedList`
is an array of well-formed entries. -/
def mkSerialized (kvs : List (String × Int)) : JVal :=
  .obj [("_serializedList", .arr (mkEntries kvs))]

/-- A run entry of `pastRunsData` with the given counter list, aggregator
value and damage-instance value. -/
def mkRun (cnt agg dmg : JVal) : JVal :=
  .obj [("_statCounters", cnt), ("_statAggregators", agg),
        ("_lastDamageInstances", dmg)]

/-- A save document of the client's shape: hardcore, exactly one death, and
the given top-level metrics, run history and skill slots. -/
def mkDoc (gt cr : Int) (runs : List JVal) (skillSlots : JVal) : JVal :=
  .obj [("hardcoreModeEnabled", .bool true),
        ("cumulativeTotalDeaths", .num 1),
        ("gameplayTime", .num gt),
        ("cumulativeTotalRuns", .num cr),
        ("pastRunsData", .arr runs),
        ("skillSlots", skillSlots)]

/-- A damage-instance list ending in an instance with the given total. -/
def mkDamage (total : Int) : JVal :=
  .arr [.obj [("_totalDamage", .num total)]]

/-- A skill slot carrying the given `_skillHashId`. -/
def mkSlot (i : Int) : JVal :=
  .obj [("_skillHashId", .num i)]

/-! The dedup fingerprinter (`src/lib/hash.ts`): UTF-8-encode
`userId + "|" + rawSnapshot`, digest with SHA-256, and hex-encode each
byte with `b.toString(16).padStart(2, '0')`. SHA-256 (FIPS 180-4) is the
platform primitive `crypto.subtle.digest('SHA-256', ...)`, implemented
here concretely over byte lists, 32-bit words as naturals mod 2^32. -/

/-- UTF-8 encoding of one Unicode scalar value, as `TextEncoder` emits. -/
def utf8Char (c : Nat) : List Nat :=
  if c < 128 then [c]
  else if c < 2048 then [192 + c / 64, 128 + c % 64]
  else if c < 65536 then [224 + c / 4096, 128 + c / 64 % 64, 128 + c % 64]
  else [240 + c / 262144, 128 + c / 4096 % 64, 128 + c / 64 % 64, 128 + c % 64]

/-- UTF-8 encoding of a whole string. -/
def utf8Encode (s : String) : List Nat :=
  s.data.flatMap (fun c => utf8Char c.toNat)

/-- Reduction modulo 2^32 (32-bit word arithmetic). -/
def w32 (n : Nat) : Nat := n % 4294967296

/-- Right rotation of a 32-bit word by `k` places. -/
def rotr (x k : Nat) : Nat := w32 (x / 2 ^ k + x % 2 ^ k * 2 ^ (32 - k))

/-- SHA-256 big sigma-0. -/
def bigSigma0 (x : Nat) : Nat := rotr x 2 ^^^ rotr x 13 ^^^ rotr x 22

/-- SHA-256 big sigma-1. -/
def bigSigma1 (x : Nat) : Nat := rotr x 6 ^^^ rotr x 11 ^^^ rotr x 25

/-- SHA-256 small sigma-0. -/
def smallSigma0 (x : Nat) : Nat := rotr x 7 ^^^ rotr x 18 ^^^ x / 2 ^ 3

/-- SHA-256 small sigma-1. -/
def smallSigma1 (x : Nat) : Nat := rotr x 17 ^^^ rotr x 19 ^^^ x / 2 ^ 10

/-- SHA-256 choice function. -/
def chf (x y z : Nat) : Nat := (x &&& y) ^^^ ((4294967295 - w32 x) &&& z)

/-- SHA-256 majority function. -/
def majf (x y z : Nat) : Nat := (x &&& y) ^^^ (x &&& z) ^^^ (y &&& z)

/-- The 64 SHA-256 round constants (FIPS 180-4 §4.2.2, in decimal). -/
def shaK : List Nat :=
  [1116352408, 1899447441, 3049323471, 3921009573,
   961987163, 1508970993, 2453635748, 2870763221,
   3624381080, 310598401, 607225278, 1426881987,
   1925078388, 2162078206, 2614888103, 3248222580,
   3835390401, 4022224774, 264347078, 604807628,
   770255983, 1249150122, 1555081692, 1996064986,
   2554220882, 2821834349, 2952996808, 3210313671,
   3336571891, 3584528711, 113926993, 338241895,
   666307205, 773529912, 1294757372, 1396182291,
   1695183700, 1986661051, 2177026350, 2456956037,
   2730485921, 2820302411, 3259730800, 3345764771,
   3516065817, 3600352804, 4094571909, 275423344,
   430227734, 506948616, 659060556, 883997877,
   958139571, 1322822218, 1537002063, 1747873779,
   1955562222, 2024104815, 2227730452, 2361852424,
   2428436474, 2756734187, 3204031479, 3329325298]

/-- The SHA-256 working state: eight 32-bit words. -/
abbrev HState := Nat × Nat × Nat × Nat × Nat × Nat × Nat × Nat

/-- The SHA-256 initial hash value (FIPS 180-4 §5.3.3, in decimal). -/
def shaH0 : HState :=
  (1779033703, 3144134277, 1013904242, 2773480762,
   1359893119, 2600822924, 528734635, 1541459225)

/-- Big-endian bytes of a 64-bit length field. -/
def be64 (n : Nat) : List Nat :=
  [n / 2 ^ 56 % 256, n / 2 ^ 48 % 256, n / 2 ^ 40 % 256, n / 2 ^ 32 % 256,
   n / 2 ^ 24 % 256, n / 2 ^ 16 % 256, n / 2 ^ 8 % 256, n % 256]

/-- Big-endian bytes of a 32-bit word. -/
def be32 (n : Nat) : List Nat :=
  [n / 2 ^ 24 % 256, n / 2 ^ 16 % 256, n / 2 ^ 8 % 256, n % 256]

/-- SHA-256 message padding: a 0x80 byte, zeros to 56 mod 64, and the
message bit length as a big-endian 64-bit field. -/
def padMsg (msg : List Nat) : List Nat :=
  msg ++ [128] ++ List.replicate ((119 - msg.length % 64) % 64) 0 ++ be64 (8 * msg.length)

/-- Group bytes into big-endian 32-bit words. -/
def toWords : List Nat → List Nat
  | b0 :: b1 :: b2 :: b3 :: rest =>
    (b0 * 16777216 + b1 * 65536 + b2 * 256 + b3) :: toWords rest
  | _ => []

/-- Group words into 16-word blocks. -/
def toBlocks : List Nat → List (List Nat)
  | [] => []
  | w :: ws => ((w :: ws).take 16) :: toBlocks ((w :: ws).drop 16)
  termination_by ws => ws.length
  decreasing_by simp; omega

/-- One message-schedule extension step over the reversed schedule built so
far (head is the newest word). -/
def scheduleStep (rw : List Nat) : Nat :=
  w32 (smallSigma1 (rw.getD 1 0) + rw.getD 6 0 + smallSigma0 (rw.getD 14 0) + rw.getD 15 0)

/-- Extend the reversed message schedule by `n` words. -/
def scheduleAux : Nat → List Nat → List Nat
  | 0, rw => rw
  | n + 1, rw => scheduleAux n (scheduleStep rw :: rw)

/-- The 64-word message schedule of one block. -/
def schedule (block : List Nat) : List Nat :=
  (scheduleAux 48 block.reverse).reverse

/-- One SHA-256 round. -/
def shaRound (st : HState) (kw : Nat × Nat) : HState :=
  match st with
  | (a, b, c, d, e, f, g, h) =>
    let t1 := w32 (h + bigSigma1 e + chf e f g + kw.1 + kw.2)
    let t2 := w32 (bigSigma0 a + majf a b c)
    (w32 (t1 + t2), a, b, c, w32 (d + t1), e, f, g)

/-- Compress one block into the running hash state. -/
def compressBlock (h : HState) (block : List Nat) : HState :=
  match h, (shaK.zip (schedule block)).foldl shaRound h with
  | (a, b, c, d, e, f, g, hh), (a2, b2, c2, d2, e2, f2, g2, h2) =>
    (w32 (a + a2), w32 (b + b2), w32 (c + c2), w32 (d + d2),
     w32 (e + e2), w32 (f + f2), w32 (g + g2), w32 (hh + h2))

/-- Serialize the final hash state as 32 big-endian bytes. -/
def hsBytes : HState → List Nat
  | (a, b, c, d, e, f, g, h) =>
    be32 a ++ be32 b ++ be32 c ++ be32 d ++ be32 e ++ be32 f ++ be32 g ++ be32 h

/-- The SHA-256 digest of a byte sequence: 32 bytes. -/
def sha256Bytes (msg : List Nat) : List Nat :=
  hsBytes ((toBlocks (toWords (padMsg msg))).foldl compressBlock shaH0)

/-- The sixteen lowercase hexadecimal digits. -/
def hexAlphabet : List Char := "0123456789abcdef".data

/-- The lowercase hexadecimal digit of a value below 16. -/
def hexChar (n : Nat) : Char := hexAlphabet.getD n '0'

/-- The two-character lowercase hex rendering of one byte, as
`b.toString(16).padStart(2, '0')` produces for bytes. -/
def byteToHex (b : Nat) : List Char := [hexChar (b / 16), hexChar (b % 16)]

/-- `generateUniqueHash` from `src/lib/hash.ts`: SHA-256 of
`userId + "|" + rawSnapshot` rendered as lowercase hex. -/
def generateUniqueHash (userId rawSnapshot : String) : String :=
  let str := userId ++ "|" ++ rawSnapshot
  let data := utf8Encode str
  let hashBytes := sha256Bytes data
  ⟨hashBytes.flatMap byteToHex⟩

/-! Claim-side classifying predicates, used to state the claims about the
validator without restating its body. -/

/-- Whether a value is the number 1 (`typeof v === 'number' && v === 1`). -/
def isNumOne : JVal → Bool
  | .num n => n == 1
  | _ => false

/-- Whether a value is a non-empty array. -/
def isNonemptyArr : JVal → Bool
  | .arr xs => !xs.isEmpty
  | _ => false

/-- Whether a value is a keyed object. -/
def isKeyedObject : JVal → Bool
  | .obj _ => true
  | _ => false

/-- Whether a value is an array. -/
def isArrVal : JVal → Bool
  | .arr _ => true
  | _ => false

/-- The NotHardcore validation error. -/
def notHardcoreErr : ValidationError :=
  ⟨.NOT_HARDCORE, "Only Hardcore deaths are accepted. hardcoreModeEnabled must be true."⟩

/-- The NoDeath validation error. -/
def noDeathErr : ValidationError :=
  ⟨.NO_DEATH, "Save file must have cumulativeTotalDeaths === 1 to submit a death."⟩

/-- The InvalidStructure error for a non-object document. -/
def notObjectErr : ValidationError :=
  ⟨.INVALID_STRUCTURE, "Invalid save file: not an object."⟩

/-- The InvalidStructure error for a missing or empty run history. -/
def noRunsErr : ValidationError :=
  ⟨.INVALID_STRUCTURE, "pastRunsData is missing or empty."⟩

/-- C1: on a keyed-object document the validator short-circuits in order:
a `hardcoreModeEnabled` field other than boolean true gives the
NotHardcore error; with it true, a `cumulativeTotalDeaths` that is not the
number 1 gives the NoDeath error; with both passing, a `pastRunsData` that
is not a non-empty array gives the InvalidStructure error; and with all
three passing the validator accepts (returns no error). -/
theorem validateSaveFile_check_order (fs : List (String × JVal)) :
    (getAttr (.obj fs) "hardcoreModeEnabled" ≠ .bool true →
      validateSaveFile (.obj fs) = some notHardcoreErr)
  ∧ (getAttr (.obj fs) "hardcoreModeEnabled" = .bool true →
     isNumOne (getAttr (.obj fs) "cumulativeTotalDeaths") = false →
      validateSaveFile (.obj fs) = some noDeathErr)
  ∧ (getAttr (.obj fs) "hardcoreModeEnabled" = .bool true →
     isNumOne (getAttr (.obj fs) "cumulativeTotalDeaths") = true →
     isNonemptyArr (getAttr (.obj fs) "pastRunsData") = false →
      validateSaveFile (.obj fs) = some noRunsErr)
  ∧ (getAttr (.obj fs) "hardcoreModeEnabled" = .bool true →
     isNumOne (getAttr (.obj fs) "cumulativeTotalDeaths") = true →
     isNonemptyArr (getAttr (.obj fs) "pastRunsData") = true →
      validateSaveFile (.obj fs) = none) := by
  refine ⟨?_, ?_, ?_, ?_⟩
  · intro h
    unfold validateSaveFile
    cases hH : getAttr (.obj fs) "hardcoreModeEnabled" with
    | bool b =>
      cases b
      · simp [jsTruthy, typeofObject, hH, notHardcoreErr]
      · exact absurd hH h
    | _ => simp_all [jsTruthy, typeofObject, notHardcoreErr]
  · intro hH hD
    unfold validateSaveFile
    cases hDv : getAttr (.obj fs) "cumulativeTotalDeaths" with
    | num n =>
      rw [hDv] at hD
      simp only [isNumOne] at hD
      simp [jsTruthy, typeofObject, hH, hDv, hD, noDeathErr]
    | _ => simp_all [jsTruthy, typeofObject, noDeathErr]
  · intro hH hD hR
    unfold validateSaveFile
    cases hDv : getAttr (.obj fs) "cumulativeTotalDeaths" with
    | num n =>
      rw [hDv] at hD
      simp only [isNumOne] at hD
      cases hRv : getAttr (.obj fs) "pastRunsData" with
      | arr xs =>
        rw [hRv] at hR
        simp only [isNonemptyArr, Bool.not_eq_true'] at hR
        have hnil : xs = [] := by simpa using hR
        simp [jsTruthy, typeofObject, hH, hDv, hD, hRv, hnil, noRunsErr]
      | _ => simp_all [jsTruthy, typeofObject, noRunsErr]
    | _ => simp_all [isNumOne]
  · intro hH hD hR
    unfold validateSaveFile
    cases hDv : getAttr (.obj fs) "cumulativeTotalDeaths" with
    | num n =>
      rw [hDv] at hD
      simp only [isNumOne] at hD
      cases hRv : getAttr (.obj fs) "pastRunsData" with
      | arr xs =>
        rw [hRv] at hR
        simp only [isNonemptyArr, Bool.not_eq_false'] at hR
        have hnil : xs ≠ [] := by simpa using hR
        simp [jsTruthy, typeofObject, hH, hDv, hD, hRv, hnil]
      | _ => simp_all [isNonemptyArr]
    | _ => simp_all [isNumOne]

/-- C1 witness: the four branches of the ordering theorem exercised on
concrete documents. -/
theorem validateSaveFile_check_order_witness :
    validateSaveFile (.obj [("hardcoreModeEnabled", .bool false)]) = some notHardcoreErr
  ∧ validateSaveFile (.obj [("hardcoreModeEnabled", .bool true),
      ("cumulativeTotalDeaths", .num 2)]) = some noDeathErr
  ∧ validateSaveFile (.obj [("hardcoreModeEnabled", .bool true),
      ("cumulativeTotalDeaths", .num 1), ("pastRunsData", .arr [])]) = some noRunsErr
  ∧ validateSaveFile (.obj [("hardcoreModeEnabled", .bool true),
      ("cumulativeTotalDeaths", .num 1), ("pastRunsData", .arr [.null])]) = none := by
  refine ⟨?_, ?_, ?_, ?_⟩
  · exact (validateSaveFile_check_order _).1 (by simp [getAttr])
  · exact (validateSaveFile_check_order _).2.1 rfl rfl
  · exact (validateSaveFile_check_order _).2.2.1 rfl rfl rfl
  · exact (validateSaveFile_check_order _).2.2.2 rfl rfl rfl

/-- C9 counterexample: an array is not a keyed object, yet the validator
answers with the NotHardcore error rather than the InvalidStructure
error (`typeof [] === 'object'` lets an array through the first check). -/
theorem validateSaveFile_array_cex :
    validateSaveFile (.arr []) = some notHardcoreErr
  ∧ notHardcoreErr.code ≠ VCode.INVALID_STRUCTURE :=
  ⟨rfl, by decide⟩

/-- C9 amended: a document that is neither a keyed object nor an array
(null, a number, a string, a boolean) gets the InvalidStructure error,
while an array passes the object check and gets the NotHardcore error
instead (a JSON array carries no `hardcoreModeEnabled` key). -/
theorem validateSaveFile_non_object (d : JVal) :
    (isKeyedObject d = false → isArrVal d = false →
      validateSaveFile d = some notObjectErr)
  ∧ (isArrVal d = true → validateSaveFile d = some notHardcoreErr) := by
  constructor
  · intro h1 h2
    cases d with
    | undefined => rfl
    | null => rfl
    | bool b => cases b <;> rfl
    | num n => simp [validateSaveFile, jsTruthy, typeofObject, notObjectErr]
    | str s => simp [validateSaveFile, jsTruthy, typeofObject, notObjectErr]
    | arr xs => simp_all [isArrVal]
    | obj gs => simp_all [isKeyedObject]
  · intro h
    cases d with
    | arr xs =>
      show validateSaveFile (.arr xs) = some notHardcoreErr
      unfold validateSaveFile
      have hA : getAttr (.arr xs) "hardcoreModeEnabled" = .undefined := rfl
      simp [jsTruthy, typeofObject, hA, notHardcoreErr]
    | _ => simp_all [isArrVal]

/-- C9 witness for the amended statement: a number and an array, each hit
through the amended theorem. -/
theorem validateSaveFile_non_object_witness :
    validateSaveFile (.num 7) = some notObjectErr
  ∧ validateSaveFile (.arr [.num 1]) = some notHardcoreErr :=
  ⟨(validateSaveFile_non_object _).1 rfl rfl,
   (validateSaveFile_non_object _).2 rfl⟩

/-- The serialized hash state is always 32 bytes. -/
theorem hsBytes_length (h : HState) : (hsBytes h).length = 32 := by
  obtain ⟨a, b, c, d, e, f, g, hh⟩ := h
  simp [hsBytes, be32]

/-- The SHA-256 digest of any byte sequence is 32 bytes. -/
theorem sha256Bytes_length (msg : List Nat) : (sha256Bytes msg).length = 32 := by
  unfold sha256Bytes
  exact hsBytes_length _

/-- Hex-encoding a byte list doubles its length. -/
theorem flatMap_byteToHex_length (bs : List Nat) :
    (bs.flatMap byteToHex).length = 2 * bs.length := by
  induction bs with
  | nil => rfl
  | cons b rest ih => simp [byteToHex, ih]; omega

/-- Every character `hexChar` produces is a lowercase hexadecimal digit. -/
theorem hexChar_mem (n : Nat) : hexChar n ∈ hexAlphabet := by
  unfold hexChar List.getD
  cases hq : hexAlphabet[n]? with
  | none => simp [hq]; decide
  | some c =>
    have : c ∈ hexAlphabet := by
      have := List.getElem?_mem hq
      exact this
    simpa [hq] using this

/-- C2: the dedup fingerprint is a function of the concatenation
`userId ++ "|" ++ rawSnapshot` alone (hence two invocations on the same
pair agree), and its value is always a string of exactly 64 characters,
each a lowercase hexadecimal digit. -/
theorem generateUniqueHash_deterministic_hex
    (u r u2 r2 : String) (h : u ++ "|" ++ r = u2 ++ "|" ++ r2) :
    generateUniqueHash u r = generateUniqueHash u2 r2
  ∧ (generateUniqueHash u r).length = 64
  ∧ ∀ ch ∈ (generateUniqueHash u r).data, ch ∈ hexAlphabet := by
  refine ⟨?_, ?_, ?_⟩
  · unfold generateUniqueHash
    rw [h]
  · show (String.mk ((sha256Bytes (utf8Encode (u ++ "|" ++ r))).flatMap byteToHex)).length = 64
    rw [String.length, flatMap_byteToHex_length, sha256Bytes_length]
  · intro ch hch
    have hch2 : ch ∈ (sha256Bytes (utf8Encode (u ++ "|" ++ r))).flatMap byteToHex := hch
    rw [List.mem_flatMap] at hch2
    obtain ⟨b, _, hb⟩ := hch2
    simp only [byteToHex, List.mem_cons, List.not_mem_nil, or_false] at hb
    rcases hb with rfl | rfl
    · exact hexChar_mem _
    · exact hexChar_mem _

/-- C2 witness: the fingerprint theorem applied at a concrete submitter and
snapshot. -/
theorem generateUniqueHash_deterministic_hex_witness :
    generateUniqueHash "alice" "snap" = generateUniqueHash "alice" "snap"
  ∧ (generateUniqueHash "alice" "snap").length = 64 := by
  have h := generateUniqueHash_deterministic_hex "alice" "snap" "alice" "snap" rfl
  exact ⟨h.1, h.2.1⟩

/-! The serialized-list lookup contract (claim C8). The scan evaluates
`x.Key` on each element in turn, so its outcome is governed by which
elements are nullish (those throw), which carry the key, and which miss. -/

/-- Whether a value is neither null nor undefined (a property read on it
cannot throw). -/
def notNullish : JVal → Bool
  | .null => false
  | .undefined => false
  | _ => true

/-- Whether an entry's `Key` property strict-equals the string `key`. -/
def keyIs (key : String) (x : JVal) : Bool :=
  match getAttr x "Key" with
  | .str s => s == key
  | _ => false

/-- An entry the scan steps over without matching `key` and without
throwing. -/
def scanMiss (key : String) (x : JVal) : Bool := notNullish x && !keyIs key x

/-- A property read on a non-nullish value never throws. -/
theorem getPropEx_notNullish (x : JVal) (k : String) (h : notNullish x = true) :
    getPropEx x k = .ok (getAttr x k) := by
  cases x <;> simp_all [getPropEx, notNullish]

/-- A scan over entries that all miss the key finds nothing. -/
theorem findByKey_miss (key : String) (items : List JVal)
    (h : items.all (scanMiss key) = true) : findByKey key items = .ok none := by
  induction items with
  | nil => rfl
  | cons x xs ih =>
    simp only [List.all_cons, Bool.and_eq_true] at h
    obtain ⟨hx, hxs⟩ := h
    simp only [scanMiss, Bool.and_eq_true] at hx
    obtain ⟨hnn, hnk⟩ := hx
    unfold findByKey
    rw [getPropEx_notNullish x _ hnn]
    cases hkv : getAttr x "Key" with
    | str s =>
      have hs : (s == key) = false := by
        simp only [keyIs, hkv, Bool.not_eq_true'] at hnk
        exact hnk
      simp [hs, ih hxs]
    | _ => simp [ih hxs]

/-- The scan returns the first matching entry, whatever follows it. -/
theorem findByKey_hit (key : String) (pre : List JVal) (x : JVal) (post : List JVal)
    (hpre : pre.all (scanMiss key) = true) (hnn : notNullish x = true)
    (hk : keyIs key x = true) :
    findByKey key (pre ++ x :: post) = .ok (some x) := by
  induction pre with
  | nil =>
    simp only [List.nil_append]
    unfold findByKey
    rw [getPropEx_notNullish x _ hnn]
    cases hkv : getAttr x "Key" with
    | str s =>
      have hs : (s == key) = true := by
        simp only [keyIs, hkv] at hk
        exact hk
      simp [hs]
    | _ => simp_all [keyIs]
  | cons y ys ih =>
    simp only [List.all_cons, Bool.and_eq_true] at hpre
    obtain ⟨hy, hys⟩ := hpre
    simp only [scanMiss, Bool.and_eq_true] at hy
    obtain ⟨hynn, hynk⟩ := hy
    show findByKey key (y :: (ys ++ x :: post)) = .ok (some x)
    unfold findByKey
    rw [getPropEx_notNullish y _ hynn]
    cases hkv : getAttr y "Key" with
    | str s =>
      have hs : (s == key) = false := by
        simp only [keyIs, hkv, Bool.not_eq_true'] at hynk
        exact hynk
      simp [hs, ih hys]
    | _ => simp [ih hys]

/-- A null entry reached before any match makes the scan throw the
TypeError of reading `Key` on null. -/
theorem findByKey_null (key : String) (pre : List JVal) (post : List JVal)
    (hpre : pre.all (scanMiss key) = true) :
    findByKey key (pre ++ .null :: post) = .error (.typeError "Key") := by
  induction pre with
  | nil => simp only [List.nil_append]; rfl
  | cons y ys ih =>
    simp only [List.all_cons, Bool.and_eq_true] at hpre
    obtain ⟨hy, hys⟩ := hpre
    simp only [scanMiss, Bool.and_eq_true] at hy
    obtain ⟨hynn, hynk⟩ := hy
    show findByKey key (y :: (ys ++ .null :: post)) = .error (.typeError "Key")
    unfold findByKey
    rw [getPropEx_notNullish y _ hynn]
    cases hkv : getAttr y "Key" with
    | str s =>
      have hs : (s == key) = false := by
        simp only [keyIs, hkv, Bool.not_eq_true'] at hynk
        exact hynk
      simp [hs, ih hys]
    | _ => simp [ih hys]

/-- C8 counterexample: a list whose single entry is null is a sequence in
which the key is not found, yet the optional lookup does not return 0 — the
scan's `x.Key` read throws a TypeError. -/
theorem lookup_null_entry_cex :
    getValueFromSerializedList (.arr [.null]) "RunTime" = .error (.typeError "Key")
  ∧ getValueFromSerializedList (.arr [.null]) "RunTime" ≠ .ok 0 :=
  ⟨rfl, by intro h; exact Except.noConfusion h⟩

/-- C8 amended: for every key — a non-sequence gives 0 (optional) and the
missing-stat-block error naming the key (required); a sequence scanned to
the end without a match and without nullish entries gives 0 (optional) and
the missing-required-field error naming the key (required); the first
matching entry's numeric value wins, whatever follows it; and a null entry
reached before any match makes both lookups throw a TypeError instead. -/
theorem serializedList_lookup_contract (key : String) :
    (∀ v, isArrVal v = false →
       getValueFromSerializedList v key = .ok 0 ∧
       getRequiredValue v key = .error (.missingStatBlock key))
  ∧ (∀ items, items.all (scanMiss key) = true →
       getValueFromSerializedList (.arr items) key = .ok 0 ∧
       getRequiredValue (.arr items) key = .error (.missingField key))
  ∧ (∀ pre x post n, pre.all (scanMiss key) = true → notNullish x = true →
       keyIs key x = true → optChain x "Value" = .num n →
       getValueFromSerializedList (.arr (pre ++ x :: post)) key = .ok n ∧
       getRequiredValue (.arr (pre ++ x :: post)) key = .ok n)
  ∧ (∀ pre post, pre.all (scanMiss key) = true →
       getValueFromSerializedList (.arr (pre ++ .null :: post)) key
         = .error (.typeError "Key") ∧
       getRequiredValue (.arr (pre ++ .null :: post)) key
         = .error (.typeError "Key")) := by
  refine ⟨?_, ?_, ?_, ?_⟩
  · intro v hv
    cases v <;> simp_all [getValueFromSerializedList, getRequiredValue, isArrVal]
  · intro items h
    have hf := findByKey_miss key items h
    constructor
    · simp [getValueFromSerializedList, hf]
    · simp [getRequiredValue, hf]
  · intro pre x post n hpre hnn hk hv
    have hf := findByKey_hit key pre x post hpre hnn hk
    constructor
    · simp [getValueFromSerializedList, hf, hv]
    · simp [getRequiredValue, hf, hv]
  · intro pre post hpre
    have hf := findByKey_null key pre post hpre
    constructor
    · simp [getValueFromSerializedList, hf]
    · simp [getRequiredValue, hf]

/-- C8 witness: the lookup contract exercised on concrete lists — a
non-sequence, a clean miss, a duplicate key where the first entry wins,
and a null entry. -/
theorem serializedList_lookup_contract_witness :
    (getValueFromSerializedList .undefined "Gold" = .ok 0 ∧
     getRequiredValue .undefined "Gold" = .error (.missingStatBlock "Gold"))
  ∧ (getValueFromSerializedList
       (.arr [.obj [("Key", .str "Other"), ("Value", .num 3)]]) "Gold" = .ok 0 ∧
     getRequiredValue
       (.arr [.obj [("Key", .str "Other"), ("Value", .num 3)]]) "Gold"
         = .error (.missingField "Gold"))
  ∧ (getValueFromSerializedList
       (.arr [.obj [("Key", .str "Other"), ("Value", .num 3)],
              .obj [("Key", .str "Gold"), ("Value", .num 7)],
              .obj [("Key", .str "Gold"), ("Value", .num 9)]]) "Gold" = .ok 7 ∧
     getRequiredValue
       (.arr [.obj [("Key", .str "Other"), ("Value", .num 3)],
              .obj [("Key", .str "Gold"), ("Value", .num 7)],
              .obj [("Key", .str "Gold"), ("Value", .num 9)]]) "Gold" = .ok 7)
  ∧ (getValueFromSerializedList (.arr [.null]) "Gold" = .error (.typeError "Key") ∧
     getRequiredValue (.arr [.null]) "Gold" = .error (.typeError "Key")) := by
  refine ⟨?_, ?_, ?_, ?_⟩
  · exact (serializedList_lookup_contract "Gold").1 .undefined rfl
  · exact (serializedList_lookup_contract "Gold").2.1 _ (by rfl)
  · exact (serializedList_lookup_contract "Gold").2.2.1
      [.obj [("Key", .str "Other"), ("Value", .num 3)]]
      (.obj [("Key", .str "Gold"), ("Value", .num 7)])
      [.obj [("Key", .str "Gold"), ("Value", .num 9)]] 7 (by rfl) rfl rfl rfl
  · exact (serializedList_lookup_contract "Gold").2.2.2 [] [.null] rfl

/-- The aggregation fold is permutation-invariant whenever it succeeds:
its accumulator is a componentwise sum of integers. -/
theorem sumRuns_perm (xs ys : List JVal) (h : xs.Perm ys) :
    ∀ acc t, sumRuns xs acc = .ok t → sumRuns ys acc = .ok t := by
  induction h with
  | nil => intro acc t hx; exact hx
  | cons x _ ih =>
    intro acc t hx
    simp only [sumRuns] at hx ⊢
    cases hr : runStats x with
    | error e => simp [hr] at hx
    | ok v =>
      simp only [hr] at hx ⊢
      exact ih _ _ hx
  | swap x y l =>
    intro acc t hx
    simp only [sumRuns] at hx ⊢
    cases hy : runStats y with
    | error e => simp [hy] at hx
    | ok vy =>
      cases hx2 : runStats x with
      | error e => simp [hy, hx2] at hx
      | ok vx =>
        simp only [hy, hx2] at hx ⊢
        rw [add_right_comm acc vy vx] at hx
        exact hx
  | trans _ _ ih1 ih2 =>
    intro acc t hx
    exact ih2 _ _ (ih1 _ _ hx)

/-- In the exact-integer model, the career aggregator is
order-independent: permuting the elements of `pastRunsData` leaves all
five returned totals unchanged whenever aggregation returns. This is a
property of the model's exact addition — the source folds IEEE-754
doubles, whose addition reassociates under permutation with rounding, so
the lemma is not offered as settling the order-independence claim about
the program. -/
theorem sumCareerStats_perm (xs ys : List JVal) (h : xs.Perm ys) (t : CareerTotals)
    (hx : sumCareerStats (.arr xs) = .ok t) : sumCareerStats (.arr ys) = .ok t := by
  simp only [sumCareerStats] at hx ⊢
  cases hs : sumRuns xs (0, 0, 0, 0, 0) with
  | error e =>
    rw [hs] at hx
    exact Except.noConfusion hx
  | ok v =>
    obtain ⟨g, s, k, e, b⟩ := v
    rw [hs] at hx
    rw [sumRuns_perm xs ys h _ _ hs]
    exact hx

/-- Swapping two concrete runs leaves the exact-integer totals
unchanged. -/
theorem sumCareerStats_perm_witness :
    sumCareerStats (.arr
      [mkRun (mkSerialized [("EnemiesDefeated", 3)]) (mkSerialized [("GoldGained", 10)]) .undefined,
       mkRun (mkSerialized [("EnemiesDefeated", 4)]) (mkSerialized [("GoldGained", 5)]) .undefined])
      = .ok ⟨15, 0, 7, 0, 0⟩
  ∧ sumCareerStats (.arr
      [mkRun (mkSerialized [("EnemiesDefeated", 4)]) (mkSerialized [("GoldGained", 5)]) .undefined,
       mkRun (mkSerialized [("EnemiesDefeated", 3)]) (mkSerialized [("GoldGained", 10)]) .undefined])
      = .ok ⟨15, 0, 7, 0, 0⟩ :=
  ⟨rfl, sumCareerStats_perm _ _
    (List.Perm.swap
      (mkRun (mkSerialized [("EnemiesDefeated", 4)]) (mkSerialized [("GoldGained", 5)]) .undefined)
      (mkRun (mkSerialized [("EnemiesDefeated", 3)]) (mkSerialized [("GoldGained", 10)]) .undefined)
      []) ⟨15, 0, 7, 0, 0⟩ rfl⟩

/-! Reduction lemmas for the fixture documents, used to settle the
extraction claims. -/

/-- Binding a success just applies the continuation. -/
theorem ok_bind {α β : Type} (a : α) (f : α → Except ExtractErr β) :
    (Except.ok a >>= f) = f a := rfl

/-- Binding a failure propagates it. -/
theorem error_bind {α β : Type} (e : ExtractErr) (f : α → Except ExtractErr β) :
    ((Except.error e : Except ExtractErr α) >>= f) = Except.error e := rfl

/-- The assoc-list scan describing lookups over well-formed entries: the
first entry carrying the key, defaulting to 0. -/
def lookupD (kvs : List (String × Int)) (key : String) : Int :=
  match kvs.find? (fun kv => kv.1 == key) with
  | some kv => kv.2
  | none => 0

/-- The scan over well-formed entries finds exactly the first assoc-list
hit. -/
theorem findByKey_mkEntries (key : String) (kvs : List (String × Int)) :
    findByKey key (mkEntries kvs)
      = .ok ((kvs.find? (fun kv => kv.1 == key)).map
          (fun kv => JVal.obj [("Key", .str kv.1), ("Value", .num kv.2)])) := by
  induction kvs with
  | nil => rfl
  | cons kv rest ih =>
    show findByKey key (JVal.obj [("Key", .str kv.1), ("Value", .num kv.2)] :: mkEntries rest) = _
    unfold findByKey
    cases hk : kv.1 == key with
    | true =>
      have : getPropEx (JVal.obj [("Key", .str kv.1), ("Value", .num kv.2)]) "Key"
          = .ok (.str kv.1) := rfl
      rw [this]
      simp [hk, List.find?]
    | false =>
      have : getPropEx (JVal.obj [("Key", .str kv.1), ("Value", .num kv.2)]) "Key"
          = .ok (.str kv.1) := rfl
      rw [this]
      simp only [hk, List.find?]
      simp [hk, ih]

/-- The optional lookup over a well-formed list returns the assoc-list
value, defaulting to 0. -/
theorem getValueFromSerializedList_mk (key : String) (kvs : List (String × Int)) :
    getValueFromSerializedList (.arr (mkEntries kvs)) key = .ok (lookupD kvs key) := by
  have hf := findByKey_mkEntries key kvs
  cases h : kvs.find? (fun kv => kv.1 == key) with
  | none =>
    rw [h] at hf
    simp [getValueFromSerializedList, hf, lookupD, h]
  | some kv =>
    rw [h] at hf
    have hv : optChain (JVal.obj [("Key", .str kv.1), ("Value", .num kv.2)]) "Value"
        = .num kv.2 := rfl
    simp [getValueFromSerializedList, hf, hv, lookupD, h]

/-- The required lookup over a well-formed list returns the assoc-list
value, or the missing-required-field error when the key is absent. -/
theorem getRequiredValue_mk (key : String) (kvs : List (String × Int)) :
    getRequiredValue (.arr (mkEntries kvs)) key
      = (match kvs.find? (fun kv => kv.1 == key) with
         | some kv => .ok kv.2
         | none => .error (.missingField key)) := by
  have hf := findByKey_mkEntries key kvs
  cases h : kvs.find? (fun kv => kv.1 == key) with
  | none =>
    rw [h] at hf
    simp [getRequiredValue, hf, h]
  | some kv =>
    rw [h] at hf
    have hv : optChain (JVal.obj [("Key", .str kv.1), ("Value", .num kv.2)]) "Value"
        = .num kv.2 := rfl
    simp [getRequiredValue, hf, hv, h]

/-- The `_serializedList` read on a well-formed stat list. -/
theorem optChain_mkSerialized (kvs : List (String × Int)) :
    optChain (mkSerialized kvs) "_serializedList" = .arr (mkEntries kvs) := rfl

/-- Reading the counter block of a fixture run. -/
theorem getPropEx_mkRun_cnt (cnt agg dmg : JVal) :
    getPropEx (mkRun cnt agg dmg) "_statCounters" = .ok cnt := rfl

/-- Reading the aggregator block of a fixture run. -/
theorem getPropEx_mkRun_agg (cnt agg dmg : JVal) :
    getPropEx (mkRun cnt agg dmg) "_statAggregators" = .ok agg := rfl

/-- Reading the damage-instance list of a fixture run. -/
theorem getPropEx_mkRun_dmg (cnt agg dmg : JVal) :
    getPropEx (mkRun cnt agg dmg) "_lastDamageInstances" = .ok dmg := rfl

/-- Reading the run history of a fixture document. -/
theorem getPropEx_mkDoc_runs (gt cr : Int) (runs : List JVal) (ss : JVal) :
    getPropEx (mkDoc gt cr runs ss) "pastRunsData" = .ok (.arr runs) := rfl

/-- Reading the career seconds of a fixture document. -/
theorem getPropEx_mkDoc_gt (gt cr : Int) (runs : List JVal) (ss : JVal) :
    getPropEx (mkDoc gt cr runs ss) "gameplayTime" = .ok (.num gt) := rfl

/-- Reading the career run count of a fixture document. -/
theorem getPropEx_mkDoc_cr (gt cr : Int) (runs : List JVal) (ss : JVal) :
    getPropEx (mkDoc gt cr runs ss) "cumulativeTotalRuns" = .ok (.num cr) := rfl

/-- Reading the skill slots of a fixture document. -/
theorem getPropEx_mkDoc_ss (gt cr : Int) (runs : List JVal) (ss : JVal) :
    getPropEx (mkDoc gt cr runs ss) "skillSlots" = .ok ss := rfl

/-- Subscripting a non-empty array by its length minus one picks the last
element. -/
theorem subscriptNum_last (ys : List JVal) (r : JVal) :
    subscriptNum (.arr (ys ++ [r])) ((((ys ++ [r]).length : Nat) : Int) - 1) = r := by
  have h2 : ((((ys ++ [r]).length : Nat) : Int) - 1) = Int.ofNat ys.length := by
    simp [List.length_append]
  rw [h2]
  show (ys ++ [r]).getD ys.length .undefined = r
  simp [List.getD]

/-- The `v[v.length - 1]` subscript picks the last element of a non-empty
array. -/
theorem getIndexLast_append (ys : List JVal) (r : JVal) :
    getIndexLast (.arr (ys ++ [r])) = .ok r := by
  have h1 : getPropEx (.arr (ys ++ [r])) "length" = .ok (.num ((ys ++ [r]).length)) := rfl
  unfold getIndexLast
  rw [h1]
  show Except.ok (subscriptNum (.arr (ys ++ [r])) ((((ys ++ [r]).length : Nat) : Int) - 1))
      = .ok r
  rw [subscriptNum_last]

/-- Whether a well-formed entry list carries a key. -/
def hasKey (kvs : List (String × Int)) (key : String) : Bool :=
  (kvs.find? (fun kv => kv.1 == key)).isSome

/-- Whether a value is a number. -/
def isNumVal : JVal → Bool
  | .num _ => true
  | _ => false

/-- The required lookup over a well-formed list, phrased with `hasKey`. -/
theorem getRequiredValue_mk2 (key : String) (kvs : List (String × Int)) :
    getRequiredValue (.arr (mkEntries kvs)) key
      = if hasKey kvs key then .ok (lookupD kvs key)
        else .error (.missingField key) := by
  rw [getRequiredValue_mk]
  unfold hasKey lookupD
  cases h : kvs.find? (fun kv => kv.1 == key) <;> simp [h]

/-- The per-run aggregation body on a fixture run: the five optional
lookups, never failing. -/
theorem runStats_mkRun (cnt agg : List (String × Int)) (dmg : JVal) :
    runStats (mkRun (mkSerialized cnt) (mkSerialized agg) dmg)
      = .ok (lookupD agg "GoldGained", lookupD cnt "SoulStonesCollected",
             lookupD cnt "EnemiesDefeated", lookupD cnt "EliteEnemiesDefeated",
             lookupD cnt "BossEnemiesDefeated") := by
  simp only [runStats, getPropEx_mkRun_agg, getPropEx_mkRun_cnt, ok_bind,
    optChain_mkSerialized, getValueFromSerializedList_mk]
  rfl

/-- Career totals over a single-run history are that run's five lookups. -/
theorem sumCareerStats_single (run : JVal) (g s k e b : Int)
    (h : runStats run = .ok (g, s, k, e, b)) :
    sumCareerStats (.arr [run]) = .ok ⟨g, s, k, e, b⟩ := by
  simp only [sumCareerStats, sumRuns, h]
  norm_num

/-- Last-run extraction over a fixture document whose final run has
well-formed counter and aggregator lists carrying the two required keys
and a damage history ending in an instance with a numeric total. -/
theorem getLastRunStats_fixture (gt cr : Int) (runs : List JVal)
    (cnt agg : List (String × Int)) (dpre : List JVal) (dlast : JVal) (dt : Int)
    (ss : JVal)
    (hL : hasKey cnt "LevelAchieved" = true)
    (hR : hasKey agg "RunTime" = true)
    (hd : optChain dlast "_totalDamage" = .num dt) :
    getLastRunStats (mkDoc gt cr
        (runs ++ [mkRun (mkSerialized cnt) (mkSerialized agg) (.arr (dpre ++ [dlast]))]) ss)
      = .ok { level := lookupD cnt "LevelAchieved",
              damageTaken := dt,
              lastRunKills := lookupD cnt "EnemiesDefeated",
              lastRunSoulstones := lookupD cnt "SoulStonesCollected",
              lastRunRegularKills := lookupD cnt "RegularEnemiesDefeated",
              lastRunEliteKills := lookupD cnt "EliteEnemiesDefeated",
              lastRunBossKills := lookupD cnt "BossEnemiesDefeated",
              lastRunGold := lookupD agg "GoldGained",
              lastRunDamageDealt := lookupD agg "DamageDealt",
              lastRunDuration := lookupD agg "RunTime" } := by
  have hne : (dpre ++ [dlast]).isEmpty = false := by simp
  have hlast : (dpre ++ [dlast]).getLast?.getD .undefined = dlast := by
    simp [List.getLast?_append]
  simp only [getLastRunStats, getPropEx_mkDoc_runs, ok_bind, getIndexLast_append,
    getPropEx_mkRun_cnt, getPropEx_mkRun_agg, getPropEx_mkRun_dmg,
    optChain_mkSerialized, getValueFromSerializedList_mk, getRequiredValue_mk2,
    hL, hR, if_true, hne, hlast, hd, Bool.false_eq_true, if_false]

/-- Last-run extraction fails with the missing-required-field error naming
`RunTime` when the final run's aggregator list lacks that key (whatever its
damage history holds). -/
theorem getLastRunStats_no_runtime (gt cr : Int) (runs : List JVal)
    (cnt agg : List (String × Int)) (dmg ss : JVal)
    (hL : hasKey cnt "LevelAchieved" = true)
    (hR : hasKey agg "RunTime" = false) :
    getLastRunStats (mkDoc gt cr
        (runs ++ [mkRun (mkSerialized cnt) (mkSerialized agg) dmg]) ss)
      = .error (.missingField "RunTime") := by
  simp only [getLastRunStats, getPropEx_mkDoc_runs, ok_bind, getIndexLast_append,
    getPropEx_mkRun_cnt, getPropEx_mkRun_agg, optChain_mkSerialized,
    getValueFromSerializedList_mk, getRequiredValue_mk2, hL, hR, if_true,
    Bool.false_eq_true, if_false, error_bind]

/-- Last-run extraction fails with the missing-stat-block error naming
`RunTime` when the final run has no aggregator block at all. -/
theorem getLastRunStats_no_agg_block (gt cr : Int) (runs : List JVal)
    (cnt : List (String × Int)) (dmg ss : JVal)
    (hL : hasKey cnt "LevelAchieved" = true) :
    getLastRunStats (mkDoc gt cr
        (runs ++ [mkRun (mkSerialized cnt) .undefined dmg]) ss)
      = .error (.missingStatBlock "RunTime") := by
  have h1 : optChain JVal.undefined "_serializedList" = .undefined := rfl
  have h2 : ∀ k, getValueFromSerializedList .undefined k = .ok 0 := fun _ => rfl
  have h3 : getRequiredValue .undefined "RunTime" = .error (.missingStatBlock "RunTime") := rfl
  simp only [getLastRunStats, getPropEx_mkDoc_runs, ok_bind, getIndexLast_append,
    getPropEx_mkRun_cnt, getPropEx_mkRun_agg, optChain_mkSerialized,
    getValueFromSerializedList_mk, getRequiredValue_mk2, hL, if_true,
    h1, h2, h3, error_bind]

/-- Last-run extraction fails with the no-damage-history error when the
final run's damage-instance value is not a non-empty array. -/
theorem getLastRunStats_no_damage (gt cr : Int) (runs : List JVal)
    (cnt agg : List (String × Int)) (dmg ss : JVal)
    (hL : hasKey cnt "LevelAchieved" = true)
    (hR : hasKey agg "RunTime" = true)
    (hdm : isNonemptyArr dmg = false) :
    getLastRunStats (mkDoc gt cr
        (runs ++ [mkRun (mkSerialized cnt) (mkSerialized agg) dmg]) ss)
      = .error .noDamageHistory := by
  simp only [getLastRunStats, getPropEx_mkDoc_runs, ok_bind, getIndexLast_append,
    getPropEx_mkRun_cnt, getPropEx_mkRun_agg, getPropEx_mkRun_dmg,
    optChain_mkSerialized, getValueFromSerializedList_mk, getRequiredValue_mk2,
    hL, hR, if_true]
  cases dmg with
  | arr xs =>
    simp only [isNonemptyArr, Bool.not_eq_true'] at hdm
    have hnil : xs.isEmpty = true := by simpa using hdm
    simp [hnil]
  | _ => simp_all [isNonemptyArr]

/-- Last-run extraction fails with the missing-total-damage error when the
final damage instance carries no numeric `_totalDamage`. -/
theorem getLastRunStats_no_total (gt cr : Int) (runs : List JVal)
    (cnt agg : List (String × Int)) (dpre : List JVal) (dlast : JVal) (ss : JVal)
    (hL : hasKey cnt "LevelAchieved" = true)
    (hR : hasKey agg "RunTime" = true)
    (hd : isNumVal (optChain dlast "_totalDamage") = false) :
    getLastRunStats (mkDoc gt cr
        (runs ++ [mkRun (mkSerialized cnt) (mkSerialized agg) (.arr (dpre ++ [dlast]))]) ss)
      = .error .missingTotalDamage := by
  have hne : (dpre ++ [dlast]).isEmpty = false := by simp
  have hlast : (dpre ++ [dlast]).getLast?.getD .undefined = dlast := by
    simp [List.getLast?_append]
  simp only [getLastRunStats, getPropEx_mkDoc_runs, ok_bind, getIndexLast_append,
    getPropEx_mkRun_cnt, getPropEx_mkRun_agg, getPropEx_mkRun_dmg,
    optChain_mkSerialized, getValueFromSerializedList_mk, getRequiredValue_mk2,
    hL, hR, if_true, hne, hlast]
  cases hv : optChain dlast "_totalDamage" <;> simp_all [isNumVal]

/-- The loadout filter on well-formed slots: sentinel entries are dropped,
the rest keep their order, and nothing is padded. -/
theorem filterSlots_mkSlots (ids : List Int) :
    filterSlots (ids.map mkSlot)
      = .ok ((ids.filter (fun i => i != -1)).map JVal.num) := by
  induction ids with
  | nil => rfl
  | cons i rest ih =>
    show filterSlots (mkSlot i :: rest.map mkSlot) = _
    unfold filterSlots
    have h1 : getPropEx (mkSlot i) "_skillHashId" = .ok (.num i) := rfl
    rw [h1, ih]
    cases hi : i == -1 with
    | true =>
      have : i = -1 := by simpa using hi
      simp [this, List.filter]
    | false =>
      have hb : (i != -1) = true := by simp [bne, hi]
      have hne : ¬i = -1 := by simpa using hi
      simp [List.filter, hb, hne]

/-- Full extraction over a single-run fixture document: every payload field
in terms of the document's lookups. -/
theorem extractDeathPayload_fixture (gt cr : Int) (cnt agg : List (String × Int))
    (dpre : List JVal) (dlast : JVal) (dt : Int) (ss : JVal) (sk : List JVal)
    (hL : hasKey cnt "LevelAchieved" = true)
    (hR : hasKey agg "RunTime" = true)
    (hd : optChain dlast "_totalDamage" = .num dt)
    (hss : resolveSkillIds ss = .ok sk) :
    extractDeathPayload (mkDoc gt cr
        [mkRun (mkSerialized cnt) (mkSerialized agg) (.arr (dpre ++ [dlast]))] ss)
      = .ok { level := if lookupD cnt "LevelAchieved" > 0 then lookupD cnt "LevelAchieved" else 1,
              damageTaken := dt,
              careerSeconds := gt, careerRuns := cr,
              careerKills := lookupD cnt "EnemiesDefeated",
              careerEliteKills := lookupD cnt "EliteEnemiesDefeated",
              careerBosses := lookupD cnt "BossEnemiesDefeated",
              careerGold := lookupD agg "GoldGained",
              careerSoulstones := lookupD cnt "SoulStonesCollected",
              skillIds := sk.take 5,
              lastRunKills := lookupD cnt "EnemiesDefeated",
              lastRunSoulstones := lookupD cnt "SoulStonesCollected",
              lastRunRegularKills := lookupD cnt "RegularEnemiesDefeated",
              lastRunEliteKills := lookupD cnt "EliteEnemiesDefeated",
              lastRunBossKills := lookupD cnt "BossEnemiesDefeated",
              lastRunGold := lookupD agg "GoldGained",
              lastRunDamageDealt := lookupD agg "DamageDealt",
              lastRunDuration := lookupD agg "RunTime" } := by
  have hls := getLastRunStats_fixture gt cr [] cnt agg dpre dlast dt ss hL hR hd
  rw [List.nil_append] at hls
  have hcs := sumCareerStats_single _ _ _ _ _ _
    (runStats_mkRun cnt agg (.arr (dpre ++ [dlast])))
  simp only [extractDeathPayload, hls, ok_bind, getPropEx_mkDoc_runs, hcs,
    getPropEx_mkDoc_gt, getPropEx_mkDoc_cr, getPropEx_mkDoc_ss, hss]
  rfl

/-- A fixture document exercising the happy path end to end: level 12,
50 kills, a 300-second fatal run ending in a 999-damage hit, and a loadout
of slots 5, sentinel, 7. -/
def demoDoc : JVal :=
  mkDoc 3600 4
    [mkRun (mkSerialized [("LevelAchieved", 12), ("EnemiesDefeated", 50)])
           (mkSerialized [("RunTime", 300)])
           (mkDamage 999)]
    (.arr [mkSlot 5, mkSlot (-1), mkSlot 7])

/-- The payload the fixture document extracts to. -/
def demoPayload : ExtractedDeathPayload :=
  ⟨12, 999, 3600, 4, 50, 0, 0, 0, 0, [.num 5, .num 7], 50, 0, 0, 0, 0, 0, 0, 300⟩

/-- C3 counterexample: a document carrying a negative `GoldGained` passes
validation and extracts successfully, yet the payload's last-run gold is
negative — the pipeline never enforces non-negativity of numeric fields. -/
theorem extractDeathPayload_negative_cex :
    validateSaveFile (mkDoc 3600 4
      [mkRun (mkSerialized [("LevelAchieved", 12)])
             (mkSerialized [("RunTime", 300), ("GoldGained", -5)])
             (mkDamage 999)] .undefined) = none
  ∧ (extractDeathPayload (mkDoc 3600 4
      [mkRun (mkSerialized [("LevelAchieved", 12)])
             (mkSerialized [("RunTime", 300), ("GoldGained", -5)])
             (mkDamage 999)] .undefined)).map ExtractedDeathPayload.lastRunGold = .ok (-5)
  ∧ ¬(0 : Int) ≤ -5 :=
  ⟨rfl, rfl, by decide⟩

/-- C3 amended: of the claimed invariants, only the loadout-size bound and
the positivity of the level survive — every successful extraction has a
payload whose level is positive (the clamp replaces any non-positive level
by 1, but in the source a fractional level in (0,1) passes `level > 0`
unchanged, so "level is at least 1" is not a property of the program) and
whose skill list has at most 5 entries; the numeric fields are not
guaranteed non-negative (they inherit whatever the document carries). -/
theorem extractDeathPayload_level_skill_invariant (d : JVal)
    (p : ExtractedDeathPayload) (h : extractDeathPayload d = .ok p) :
    0 < p.level ∧ p.skillIds.length ≤ 5 := by
  simp only [extractDeathPayload, bind, Except.bind, pure, Except.pure] at h
  repeat' split at h
  all_goals try exact Except.noConfusion h
  all_goals
    injection h with h2
    subst h2
    exact ⟨by simp <;> omega, by simp⟩

/-- C3 witness for the amended statement: the invariant applied to the
fixture document's successful extraction. -/
theorem extractDeathPayload_level_skill_invariant_witness :
    extractDeathPayload demoDoc = .ok demoPayload
  ∧ 0 < demoPayload.level ∧ demoPayload.skillIds.length ≤ 5 :=
  have h : extractDeathPayload demoDoc = .ok demoPayload := rfl
  ⟨h, (extractDeathPayload_level_skill_invariant demoDoc demoPayload h).1,
      (extractDeathPayload_level_skill_invariant demoDoc demoPayload h).2⟩

/-- C4: when the final run's aggregator list lacks `RunTime`, extraction
fails with the missing-required-field error naming it; when the aggregator
block is absent altogether, with the missing-stat-block error naming it —
never a defaulted 0 — while a run carrying only the two required keys
extracts successfully with every optional metric defaulted to 0. -/
theorem extractDeathPayload_runtime_required (gt cr : Int) (runs : List JVal)
    (cnt agg : List (String × Int)) (dmg ss : JVal) (lvl rt dt : Int) :
    (hasKey cnt "LevelAchieved" = true → hasKey agg "RunTime" = false →
      extractDeathPayload (mkDoc gt cr
          (runs ++ [mkRun (mkSerialized cnt) (mkSerialized agg) dmg]) ss)
        = .error (.missingField "RunTime"))
  ∧ (hasKey cnt "LevelAchieved" = true →
      extractDeathPayload (mkDoc gt cr
          (runs ++ [mkRun (mkSerialized cnt) .undefined dmg]) ss)
        = .error (.missingStatBlock "RunTime"))
  ∧ (extractDeathPayload (mkDoc gt cr
        [mkRun (mkSerialized [("LevelAchieved", lvl)]) (mkSerialized [("RunTime", rt)])
          (mkDamage dt)] .undefined)
      = .ok { level := if lvl > 0 then lvl else 1, damageTaken := dt,
              careerSeconds := gt, careerRuns := cr, careerKills := 0,
              careerEliteKills := 0, careerBosses := 0, careerGold := 0,
              careerSoulstones := 0, skillIds := [], lastRunKills := 0,
              lastRunSoulstones := 0, lastRunRegularKills := 0,
              lastRunEliteKills := 0, lastRunBossKills := 0, lastRunGold := 0,
              lastRunDamageDealt := 0, lastRunDuration := rt }) := by
  refine ⟨?_, ?_, ?_⟩
  · intro hL hR
    simp only [extractDeathPayload, getLastRunStats_no_runtime gt cr runs cnt agg dmg ss hL hR,
      error_bind]
  · intro hL
    simp only [extractDeathPayload, getLastRunStats_no_agg_block gt cr runs cnt dmg ss hL,
      error_bind]
  · have hmk : mkDamage dt = .arr ([] ++ [.obj [("_totalDamage", .num dt)]]) := rfl
    rw [hmk]
    rw [extractDeathPayload_fixture gt cr [("LevelAchieved", lvl)] [("RunTime", rt)]
      [] (.obj [("_totalDamage", .num dt)]) dt .undefined [] rfl rfl rfl rfl]
    rfl

/-- C4 witness: the three branches on concrete documents — `RunTime`
missing from the list, the aggregator block missing, and a minimal run
whose optional metrics all come out 0. -/
theorem extractDeathPayload_runtime_required_witness :
    extractDeathPayload (mkDoc 1 1
        ([] ++ [mkRun (mkSerialized [("LevelAchieved", 3)])
                      (mkSerialized [("GoldGained", 5)]) .undefined]) .undefined)
      = .error (.missingField "RunTime")
  ∧ extractDeathPayload (mkDoc 1 1
        ([] ++ [mkRun (mkSerialized [("LevelAchieved", 3)]) .undefined .undefined]) .undefined)
      = .error (.missingStatBlock "RunTime")
  ∧ (extractDeathPayload (mkDoc 7 2
        [mkRun (mkSerialized [("LevelAchieved", 3)]) (mkSerialized [("RunTime", 60)])
          (mkDamage 42)] .undefined)).map ExtractedDeathPayload.lastRunKills = .ok 0 :=
  ⟨(extractDeathPayload_runtime_required 1 1 [] _ _ .undefined .undefined 0 0 0).1 rfl rfl,
   (extractDeathPayload_runtime_required 1 1 [] _ [] .undefined .undefined 0 0 0).2.1 rfl,
   by rw [(extractDeathPayload_runtime_required 7 2 [] [] [] .undefined .undefined 3 60 42).2.2]; rfl⟩

/-- C5: for the final run — a damage-instance value that is absent, not an
array, or empty fails extraction with the no-damage-history error; a
non-empty list whose last element lacks a numeric `_totalDamage` fails with
the missing-total-damage error; and otherwise the payload's `damageTaken`
is the last element's `_totalDamage`. -/
theorem extractDeathPayload_damage_contract (gt cr : Int) (runs : List JVal)
    (cnt agg : List (String × Int)) (ss : JVal) :
    (∀ dmg, hasKey cnt "LevelAchieved" = true → hasKey agg "RunTime" = true →
       isNonemptyArr dmg = false →
       extractDeathPayload (mkDoc gt cr
           (runs ++ [mkRun (mkSerialized cnt) (mkSerialized agg) dmg]) ss)
         = .error .noDamageHistory)
  ∧ (∀ dpre dlast, hasKey cnt "LevelAchieved" = true → hasKey agg "RunTime" = true →
       isNumVal (optChain dlast "_totalDamage") = false →
       extractDeathPayload (mkDoc gt cr
           (runs ++ [mkRun (mkSerialized cnt) (mkSerialized agg) (.arr (dpre ++ [dlast]))]) ss)
         = .error .missingTotalDamage)
  ∧ (∀ dpre dlast dt sk, hasKey cnt "LevelAchieved" = true →
       hasKey agg "RunTime" = true → optChain dlast "_totalDamage" = .num dt →
       resolveSkillIds ss = .ok sk →
       (extractDeathPayload (mkDoc gt cr
           [mkRun (mkSerialized cnt) (mkSerialized agg) (.arr (dpre ++ [dlast]))] ss)).map
         ExtractedDeathPayload.damageTaken = .ok dt) := by
  refine ⟨?_, ?_, ?_⟩
  · intro dmg hL hR hdm
    simp only [extractDeathPayload,
      getLastRunStats_no_damage gt cr runs cnt agg dmg ss hL hR hdm, error_bind]
  · intro dpre dlast hL hR hd
    simp only [extractDeathPayload,
      getLastRunStats_no_total gt cr runs cnt agg dpre dlast ss hL hR hd, error_bind]
  · intro dpre dlast dt sk hL hR hd hss
    rw [extractDeathPayload_fixture gt cr cnt agg dpre dlast dt ss sk hL hR hd hss]
    rfl

/-- C5 witness: the three branches on concrete documents — an absent
damage list, a final instance without a numeric total, and a final
instance whose total 999 becomes the payload's damage taken. -/
theorem extractDeathPayload_damage_contract_witness :
    extractDeathPayload (mkDoc 1 1
        ([] ++ [mkRun (mkSerialized [("LevelAchieved", 3)])
                      (mkSerialized [("RunTime", 60)]) .undefined]) .undefined)
      = .error .noDamageHistory
  ∧ extractDeathPayload (mkDoc 1 1
        ([] ++ [mkRun (mkSerialized [("LevelAchieved", 3)])
                      (mkSerialized [("RunTime", 60)])
                      (.arr ([] ++ [.obj [("_reason", .str "fall")]]))]) .undefined)
      = .error .missingTotalDamage
  ∧ (extractDeathPayload (mkDoc 1 1
        [mkRun (mkSerialized [("LevelAchieved", 3)])
               (mkSerialized [("RunTime", 60)])
               (.arr ([.obj [("_totalDamage", .num 5)]] ++ [.obj [("_totalDamage", .num 999)]]))]
        .undefined)).map ExtractedDeathPayload.damageTaken = .ok 999 :=
  ⟨(extractDeathPayload_damage_contract 1 1 [] _ _ .undefined).1 .undefined rfl rfl rfl,
   (extractDeathPayload_damage_contract 1 1 [] _ _ .undefined).2.1 []
     (.obj [("_reason", .str "fall")]) rfl rfl rfl,
   (extractDeathPayload_damage_contract 1 1 [] _ _ .undefined).2.2
     [.obj [("_totalDamage", .num 5)]] (.obj [("_totalDamage", .num 999)]) 999 [] rfl rfl rfl rfl⟩

/-- C6: over any array of numeric skill slots, the payload's skill list is
the slots' identifiers with the sentinel -1 dropped, in slot order, with no
padding, truncated to at most 5. -/
theorem extractDeathPayload_loadout (gt cr : Int) (cnt agg : List (String × Int))
    (dpre : List JVal) (dlast : JVal) (dt : Int) (ids : List Int)
    (hL : hasKey cnt "LevelAchieved" = true)
    (hR : hasKey agg "RunTime" = true)
    (hd : optChain dlast "_totalDamage" = .num dt) :
    (extractDeathPayload (mkDoc gt cr
        [mkRun (mkSerialized cnt) (mkSerialized agg) (.arr (dpre ++ [dlast]))]
        (.arr (ids.map mkSlot)))).map ExtractedDeathPayload.skillIds
      = .ok (((ids.filter (fun i => i != -1)).map JVal.num).take 5) := by
  have hss : resolveSkillIds (.arr (ids.map mkSlot))
      = .ok ((ids.filter (fun i => i != -1)).map JVal.num) := by
    simp [resolveSkillIds, filterSlots_mkSlots]
  rw [extractDeathPayload_fixture gt cr cnt agg dpre dlast dt _ _ hL hR hd hss]
  rfl

/-- C6 witness: slots 5, sentinel, 7 yield exactly the skill list 5, 7. -/
theorem extractDeathPayload_loadout_witness :
    (extractDeathPayload (mkDoc 1 1
        [mkRun (mkSerialized [("LevelAchieved", 3)])
               (mkSerialized [("RunTime", 60)])
               (.arr ([] ++ [.obj [("_totalDamage", .num 9)]]))]
        (.arr ([5, -1, 7].map mkSlot)))).map ExtractedDeathPayload.skillIds
      = .ok [.num 5, .num 7] :=
  extractDeathPayload_loadout 1 1 _ _ [] (.obj [("_totalDamage", .num 9)]) 9
    [5, -1, 7] rfl rfl rfl

/-- C10: a skill-slot value that is absent or not an array does not fail
the loadout step — extraction still succeeds on an otherwise complete
document and the payload's skill list is empty. -/
theorem extractDeathPayload_no_skillSlots (gt cr : Int) (cnt agg : List (String × Int))
    (dpre : List JVal) (dlast : JVal) (dt : Int) (ss : JVal)
    (hL : hasKey cnt "LevelAchieved" = true)
    (hR : hasKey agg "RunTime" = true)
    (hd : optChain dlast "_totalDamage" = .num dt)
    (hss : isArrVal ss = false) :
    (extractDeathPayload (mkDoc gt cr
        [mkRun (mkSerialized cnt) (mkSerialized agg) (.arr (dpre ++ [dlast]))] ss)).map
      ExtractedDeathPayload.skillIds = .ok [] := by
  have hsk : resolveSkillIds ss = .ok [] := by
    cases ss <;> simp_all [resolveSkillIds, isArrVal]
  rw [extractDeathPayload_fixture gt cr cnt agg dpre dlast dt ss [] hL hR hd hsk]
  rfl

/-- C10 witness: a document whose `skillSlots` is absent (undefined)
extracts successfully with an empty skill list. -/
theorem extractDeathPayload_no_skillSlots_witness :
    (extractDeathPayload (mkDoc 1 1
        [mkRun (mkSerialized [("LevelAchieved", 3)])
               (mkSerialized [("RunTime", 60)])
               (.arr ([] ++ [.obj [("_totalDamage", .num 9)]]))] .undefined)).map
      ExtractedDeathPayload.skillIds = .ok [] :=
  extractDeathPayload_no_skillSlots 1 1 _ _ [] (.obj [("_totalDamage", .num 9)]) 9
    .undefined rfl rfl rfl rfl

end Graveyard
